import Mathlib

/-!
# Verification of the met-museum-backend request-mediation layer

Shallow embedding of the request-mediation core of `src/server.js`:
a TTL cache (node-cache with `stdTTL: 3600`), a rate-limited dispatch
queue (p-queue with concurrency 3, intervalCap 10, interval 2000 ms,
timeout 30000 ms), and the retry/backoff logic of `makeMetApiRequest`.

Conventions of the embedding:
* JavaScript values are modelled by `JSValue`; JS numbers are modelled
  by integers plus an explicit `vNaN` constructor (the claims only need
  truthiness of values, which this model captures exactly).
* The upstream world is an oracle `fetch : Nat → FetchResult` giving the
  classified outcome of the i-th upstream HTTP attempt made by one
  logical request for a fixed path.
* Time is a natural number of seconds for the cache (node-cache's
  `stdTTL` is in seconds); backoff delays are rationals in milliseconds.
* The internals of the node-cache and p-queue dependencies are not part
  of this repository's sources; where a claim depends on them they are
  modelled from the spec (marked `Modelled from the spec:`).
-/

namespace MetMuseum

/-- JavaScript values, as far as the mediation layer observes them.
Numbers are `Int` plus a separate `vNaN`; `vUndefined` is the value
node-cache's `get` returns on a miss. -/
inductive JSValue where
  | vUndefined
  | vNull
  | vNaN
  | vBool (b : Bool)
  | vNum (n : Int)
  | vStr (s : String)
  | vArr (elems : List JSValue)
  | vObj (fields : List (String × JSValue))

/-- JavaScript truthiness: `undefined`, `null`, `NaN`, `false`, `0` and
`""` are falsy; every other value (including all objects and arrays) is
truthy. This is the test `if (cachedData)` performs in
`src/server.js` line 36. -/
def JSValue.truthy : JSValue → Bool
  | .vUndefined => false
  | .vNull => false
  | .vNaN => false
  | .vBool b => b
  | .vNum n => n != 0
  | .vStr s => s != ""
  | .vArr _ => true
  | .vObj _ => true

/-- One cache entry: the stored payload and its absolute expiry time
(seconds). -/
structure CacheEntry where
  value : JSValue
  expiresAt : Nat

/-- The cache content: an association list keyed by cache key; a `set`
prepends, so lookup sees the newest entry for a key (overwrite
semantics). -/
abbrev Cache := List (String × CacheEntry)

/-- Default TTL of the cache, from `new NodeCache({ stdTTL: 3600 })`,
`src/server.js` line 13 (seconds). -/
def stdTTL : Nat := 3600

/-- Modelled from the spec: node-cache's `get` (the node-cache library
is a dependency, not part of this repository's sources). "get returns
nothing if the entry is absent or expired"; an entry set at time T with
TTL ttl expires at T + ttl: it is retrievable strictly before T + ttl
and absent at or after T + ttl. -/
def cacheGet (c : Cache) (key : String) (now : Nat) : Option JSValue :=
  match c.lookup key with
  | some e => if now < e.expiresAt then some e.value else none
  | none => none

/-- Modelled from the spec: node-cache's `set` — "set overwrites any
existing entry for the key and resets its expiry to now + ttl". The new
entry is prepended and shadows any older entry with the same key. -/
def cacheSet (c : Cache) (key : String) (v : JSValue) (now ttl : Nat) : Cache :=
  (key, { value := v, expiresAt := now + ttl }) :: c

/-- The call `metApiCache.set(cacheKey, response.data)` in `src/server.js`
line 58 passes no per-entry ttl, so the default `stdTTL` applies. -/
def metApiCacheSet (c : Cache) (key : String) (v : JSValue) (now : Nat) : Cache :=
  cacheSet c key v now stdTTL

/-- The read `metApiCache.get(cacheKey)` as JavaScript sees it:
`undefined` on a miss or an expired entry, the stored value otherwise. -/
def cacheGetJS (c : Cache) (key : String) (now : Nat) : JSValue :=
  match cacheGet c key now with
  | some v => v
  | none => .vUndefined

/-- Classified outcome of one upstream HTTP attempt (`axios.get`):
success with a parsed body, an HTTP error response with a status code
(`error.response.status`), or a network error carrying no response
(`error.response` undefined: DNS failure, connection reset, timeout). -/
inductive FetchResult where
  | success (data : JSValue)
  | httpError (status : Nat)
  | networkError

/-- The error object a failed `makeMetApiRequest` throws to its caller. -/
inductive JSError where
  | httpError (status : Nat)
  | networkError

/-- The classified fetch outcome a `JSError` originated from. -/
def JSError.toFetchResult : JSError → FetchResult
  | .httpError s => .httpError s
  | .networkError => .networkError

/-- Result of one `makeMetApiRequest` call: the value returned or error
thrown, the cache after the call, the number of upstream HTTP attempts
performed, and the number of `queue.add` admissions entered. -/
structure Outcome where
  result : Except JSError JSValue
  cache : Cache
  attempts : Nat
  enqueues : Nat

/-- The function `makeMetApiRequest` from `src/server.js` lines 33-77,
with the recursion depth made structural: the source guard is
`retryCount < 3`, and `budget` stands for `3 - retryCount`, so the
guard holds exactly when `budget` is a successor (first equation:
guard false, every error is rethrown; second equation: guard true,
a 403 backs off and recurses). Each recursive call re-runs the whole
function: cache check, `queue.add`, fetch. `attemptIdx` indexes the
oracle: attempt i of this logical request gets outcome `fetch i`.
Backoff delays suspend the request but do not change the cache, so
they are not part of this state. -/
def makeMetApiRequestAux (fetch : Nat → FetchResult) (cacheKey : String) (now : Nat) :
    Nat → Cache → Nat → Nat → Outcome
  | 0, cache, _retryCount, attemptIdx =>
    -- retryCount = 3: `retryCount < 3` is false, so every error is thrown unchanged
    let cachedData := cacheGetJS cache cacheKey now
    if cachedData.truthy then
      { result := .ok cachedData, cache := cache, attempts := 0, enqueues := 0 }
    else
      match fetch attemptIdx with
      | .success data =>
        { result := .ok data, cache := metApiCacheSet cache cacheKey data now,
          attempts := 1, enqueues := 1 }
      | .httpError status =>
        { result := .error (.httpError status), cache := cache,
          attempts := 1, enqueues := 1 }
      | .networkError =>
        { result := .error .networkError, cache := cache,
          attempts := 1, enqueues := 1 }
  | budget + 1, cache, retryCount, attemptIdx =>
    -- 1. Tentar obter do cache: `if (cachedData)` is a truthiness test
    let cachedData := cacheGetJS cache cacheKey now
    if cachedData.truthy then
      { result := .ok cachedData, cache := cache, attempts := 0, enqueues := 0 }
    else
      -- 2. queue.add(...): one scheduler admission, then one upstream attempt
      match fetch attemptIdx with
      | .success data =>
        { result := .ok data, cache := metApiCacheSet cache cacheKey data now,
          attempts := 1, enqueues := 1 }
      | .httpError status =>
        if status = 403 then
          -- error.response.status === 403 && retryCount < 3: wait
          -- backoffDelay, then return makeMetApiRequest(urlPath, cacheKey, retryCount + 1)
          let r := makeMetApiRequestAux fetch cacheKey now budget cache (retryCount + 1) (attemptIdx + 1)
          { result := r.result, cache := r.cache,
            attempts := r.attempts + 1, enqueues := r.enqueues + 1 }
        else
          -- a non-403 HTTP error is never retried: `throw error` rethrows unchanged
          { result := .error (.httpError status), cache := cache,
            attempts := 1, enqueues := 1 }
      | .networkError =>
        -- no `error.response`: the 403-retry condition is false, `throw error`
        { result := .error .networkError, cache := cache,
          attempts := 1, enqueues := 1 }

/-- Retry guard bound from `src/server.js` line 64: `retryCount < 3`. -/
def maxAttempts : Nat := 3

/-- Entry point: `makeMetApiRequest(urlPath, cacheKey)` with the default
`retryCount = 0`, hence budget `3 - 0 = 3`. The url path is abstracted
into the oracle `fetch`. -/
def makeMetApiRequest (fetch : Nat → FetchResult) (cache : Cache) (cacheKey : String)
    (now : Nat) : Outcome :=
  makeMetApiRequestAux fetch cacheKey now maxAttempts cache 0 0

/-- Backoff delay from `src/server.js` line 67:
`Math.pow(2, retryCount) * 2000 + Math.random() * 1000` (milliseconds).
`r` models the `Math.random()` draw, a real in [0, 1), here a rational. -/
def backoffDelay (retryCount : Nat) (r : ℚ) : ℚ :=
  2 ^ retryCount * 2000 + r * 1000

/-- Configuration of the dispatch queue. -/
structure SchedulerConfig where
  concurrency : Nat
  intervalCap : Nat
  interval : Nat
  timeout : Nat

/-- The p-queue instance constructed in `src/server.js` lines 16-21:
concurrency 3, intervalCap 10, interval 2000 ms, timeout 30000 ms. -/
def queueConfig : SchedulerConfig :=
  { concurrency := 3, intervalCap := 10, interval := 2000, timeout := 30000 }

/-- A task currently holding one of the scheduler's concurrency slots. -/
structure RunningTask where
  id : Nat
  admittedAt : Nat
  deriving DecidableEq

/-- Outcome the scheduler delivers for a submitted task. -/
inductive TaskOutcome where
  | done (v : JSValue)
  | failed (e : JSError)
  | timedOut

/-- Modelled from the spec (§4.2): the Dispatch Scheduler's state (the
p-queue library is a dependency, not part of this repository's
sources). `pending` is the FIFO admission queue, `running` the tasks
holding concurrency slots; `gen` numbers the fixed-boundary rate
windows, `windowStart` is the current window's start time,
`windowCount` the number of dispatches in the current window, and
`dispatchLog` records the window index of every dispatch ever made
(each retry re-admission is its own dispatch). -/
structure SchedState where
  now : Nat
  pending : List Nat
  running : List RunningTask
  windowStart : Nat
  gen : Nat
  windowCount : Nat
  dispatchLog : List Nat
  results : List (Nat × TaskOutcome)

/-- The scheduler's state at construction. -/
def initState : SchedState :=
  { now := 0, pending := [], running := [], windowStart := 0, gen := 0,
    windowCount := 0, dispatchLog := [], results := [] }

/-- Modelled from the spec (§4.2): one transition of the Dispatch
Scheduler. A task may begin executing only if fewer than `concurrency`
tasks are executing AND fewer than `intervalCap` tasks began in the
current window; admission is FIFO from the head of `pending`; a task
whose work has not completed `timeout` after admission is resolved as
a timeout and its slot freed; window accounting resets at fixed
interval boundaries. -/
inductive SchedStep (cfg : SchedulerConfig) : SchedState → SchedState → Prop where
  | submit (s : SchedState) (id : Nat) :
      SchedStep cfg s { s with pending := s.pending ++ [id] }
  | admitNext (s : SchedState) (id : Nat) (rest : List Nat) :
      s.pending = id :: rest →
      s.running.length < cfg.concurrency →
      s.windowCount < cfg.intervalCap →
      SchedStep cfg s { s with
        pending := rest,
        running := { id := id, admittedAt := s.now } :: s.running,
        windowCount := s.windowCount + 1,
        dispatchLog := s.gen :: s.dispatchLog }
  | complete (s : SchedState) (t : RunningTask) (out : TaskOutcome) :
      t ∈ s.running →
      SchedStep cfg s { s with
        running := s.running.erase t,
        results := (t.id, out) :: s.results }
  | timeoutFire (s : SchedState) (t : RunningTask) :
      t ∈ s.running →
      t.admittedAt + cfg.timeout ≤ s.now →
      SchedStep cfg s { s with
        running := s.running.erase t,
        results := (t.id, .timedOut) :: s.results }
  | advance (s : SchedState) (dt : Nat) :
      SchedStep cfg s { s with now := s.now + dt }
  | windowReset (s : SchedState) :
      s.windowStart + cfg.interval ≤ s.now →
      SchedStep cfg s { s with
        windowStart := s.now, gen := s.gen + 1, windowCount := 0 }

/-- States the scheduler can reach from construction. -/
inductive SchedReachable (cfg : SchedulerConfig) : SchedState → Prop where
  | init : SchedReachable cfg initState
  | step {s s2 : SchedState} :
      SchedReachable cfg s → SchedStep cfg s s2 → SchedReachable cfg s2

/-- Inductive invariant of the scheduler: the concurrency ceiling, the
agreement of `windowCount` with the log of the current window, the
per-window dispatch bound, and the bound on window indices in the log. -/
def SchedInv (cfg : SchedulerConfig) (s : SchedState) : Prop :=
  s.running.length ≤ cfg.concurrency ∧
  s.windowCount = s.dispatchLog.count s.gen ∧
  (∀ g, s.dispatchLog.count g ≤ cfg.intervalCap) ∧
  (∀ g ∈ s.dispatchLog, g ≤ s.gen)

/-- The state after the scheduler resolves a timed-out running task:
the task is removed from `running` (its slot freed) and a timeout
outcome is recorded for its caller. -/
def fireTimeout (s : SchedState) (t : RunningTask) : SchedState :=
  { s with running := s.running.erase t,
           results := (t.id, .timedOut) :: s.results }

/-- Provenance of a configuration value consumed by the core: either a
literal constant written in the source, or a value read from external
configuration (`process.env`). -/
inductive ConfigSource where
  | hardcoded (value : Nat)
  | envVar (varName : String)
  deriving DecidableEq

/-- The configuration values the core consumes (spec §6). -/
inductive CoreConfigField where
  | cacheTTL
  | concurrency
  | intervalCap
  | interval
  | schedulerTimeout
  | retryMaxAttempts
  | backoffBase
  | backoffJitterMax
  | upstreamBaseUrl
  | networkTimeout
  deriving DecidableEq

/-- Where each core configuration value comes from in `src/server.js`:
the literals at lines 13 (stdTTL), 16-21 (queue options), 50 (axios
timeout), 64 (retry guard) and 67 (backoff), and the environment read
`process.env.MET_API_BASE_URL` at line 48. -/
def configSource : CoreConfigField → ConfigSource
  | .cacheTTL => .hardcoded 3600
  | .concurrency => .hardcoded 3
  | .intervalCap => .hardcoded 10
  | .interval => .hardcoded 2000
  | .schedulerTimeout => .hardcoded 30000
  | .retryMaxAttempts => .hardcoded 3
  | .backoffBase => .hardcoded 2000
  | .backoffJitterMax => .hardcoded 1000
  | .upstreamBaseUrl => .envVar "MET_API_BASE_URL"
  | .networkTimeout => .hardcoded 15000

/-- Whether a configuration value is externally configurable. -/
def ConfigSource.isExternal : ConfigSource → Bool
  | .hardcoded _ => false
  | .envVar _ => true


/-- Cache-hit behaviour of `makeMetApiRequestAux`: when the value read
from the cache is truthy, the call returns it at once, with no upstream
attempt and no queue admission, whatever the retry budget. -/
theorem auxHit (fetch : Nat → FetchResult) (cacheKey : String) (now budget : Nat)
    (cache : Cache) (retryCount attemptIdx : Nat)
    (hhit : (cacheGetJS cache cacheKey now).truthy = true) :
    makeMetApiRequestAux fetch cacheKey now budget cache retryCount attemptIdx
      = { result := .ok (cacheGetJS cache cacheKey now), cache := cache,
          attempts := 0, enqueues := 0 } := by
  cases budget <;> simp [makeMetApiRequestAux, hhit]

/-- Cache-miss behaviour: when the cache read is falsy, the call enters
the queue and performs at least one upstream attempt. -/
theorem aux_miss_calls (fetch : Nat → FetchResult) (cacheKey : String) (now : Nat)
    (budget : Nat) (cache : Cache) (retryCount attemptIdx : Nat)
    (hmiss : (cacheGetJS cache cacheKey now).truthy = false) :
    1 ≤ (makeMetApiRequestAux fetch cacheKey now budget cache retryCount attemptIdx).attempts ∧
    1 ≤ (makeMetApiRequestAux fetch cacheKey now budget cache retryCount attemptIdx).enqueues := by
  cases budget with
  | zero =>
    simp [makeMetApiRequestAux, hmiss]
    cases hfe : fetch attemptIdx <;> simp [hfe]
  | succ b =>
    simp [makeMetApiRequestAux, hmiss]
    cases hfe : fetch attemptIdx <;> simp [hfe]
    split <;> simp

/-- Reading back a key just written: the entry is visible strictly
before its expiry and gone from then on. -/
theorem cacheGet_set_self (c : Cache) (k : String) (v : JSValue) (now ttl t : Nat) :
    cacheGet (cacheSet c k v now ttl) k t = if t < now + ttl then some v else none := by
  simp [cacheGet, cacheSet, List.lookup]


/-- When a call that missed the cache returns a value, the final cache
is exactly the initial cache with that value stored under the key at
the call time (retries never write to the cache on the way). -/
theorem aux_ok_cache (fetch : Nat → FetchResult) (cacheKey : String) (now : Nat) :
    ∀ (budget : Nat) (cache : Cache) (retryCount attemptIdx : Nat) (v : JSValue),
    (cacheGetJS cache cacheKey now).truthy = false →
    (makeMetApiRequestAux fetch cacheKey now budget cache retryCount attemptIdx).result = .ok v →
    (makeMetApiRequestAux fetch cacheKey now budget cache retryCount attemptIdx).cache
      = metApiCacheSet cache cacheKey v now := by
  intro budget
  induction budget with
  | zero =>
    intro cache rc ai v hmiss hok
    simp only [makeMetApiRequestAux, hmiss] at hok ⊢
    simp only [Bool.false_eq_true, if_false] at hok ⊢
    cases hfe : fetch ai <;> simp [hfe] at hok ⊢
    rw [hok]
  | succ b ih =>
    intro cache rc ai v hmiss hok
    simp only [makeMetApiRequestAux, hmiss] at hok ⊢
    simp only [Bool.false_eq_true, if_false] at hok ⊢
    cases hfe : fetch ai <;> simp [hfe] at hok ⊢
    · rw [hok]
    · rename_i status
      by_cases hst : status = 403 <;> simp [hst] at hok ⊢
      exact ih cache (rc + 1) (ai + 1) v hmiss hok

/-- When a call throws, the cache is unchanged, at least one upstream
attempt happened, and the thrown error is exactly the classified
outcome of the last upstream attempt — not wrapped or replaced. -/
theorem aux_error (fetch : Nat → FetchResult) (cacheKey : String) (now : Nat) :
    ∀ (budget : Nat) (cache : Cache) (retryCount attemptIdx : Nat) (e : JSError),
    (makeMetApiRequestAux fetch cacheKey now budget cache retryCount attemptIdx).result = .error e →
    (makeMetApiRequestAux fetch cacheKey now budget cache retryCount attemptIdx).cache = cache ∧
    1 ≤ (makeMetApiRequestAux fetch cacheKey now budget cache retryCount attemptIdx).attempts ∧
    fetch (attemptIdx + (makeMetApiRequestAux fetch cacheKey now budget cache retryCount attemptIdx).attempts - 1)
      = e.toFetchResult := by
  intro budget
  induction budget with
  | zero =>
    intro cache rc ai e herr
    by_cases hhit : (cacheGetJS cache cacheKey now).truthy
    · rw [auxHit fetch cacheKey now 0 cache rc ai hhit] at herr
      simp at herr
    · simp only [Bool.not_eq_true] at hhit
      cases hfe : fetch ai with
      | success data =>
        have hrec : makeMetApiRequestAux fetch cacheKey now 0 cache rc ai
            = { result := .ok data, cache := metApiCacheSet cache cacheKey data now,
                attempts := 1, enqueues := 1 } := by
          simp [makeMetApiRequestAux, hhit, hfe]
        rw [hrec] at herr
        simp at herr
      | httpError status =>
        have hrec : makeMetApiRequestAux fetch cacheKey now 0 cache rc ai
            = { result := .error (.httpError status), cache := cache,
                attempts := 1, enqueues := 1 } := by
          simp [makeMetApiRequestAux, hhit, hfe]
        rw [hrec] at herr ⊢
        simp only [Except.error.injEq] at herr
        subst herr
        simp [JSError.toFetchResult, hfe]
      | networkError =>
        have hrec : makeMetApiRequestAux fetch cacheKey now 0 cache rc ai
            = { result := .error .networkError, cache := cache,
                attempts := 1, enqueues := 1 } := by
          simp [makeMetApiRequestAux, hhit, hfe]
        rw [hrec] at herr ⊢
        simp only [Except.error.injEq] at herr
        subst herr
        simp [JSError.toFetchResult, hfe]
  | succ b ih =>
    intro cache rc ai e herr
    by_cases hhit : (cacheGetJS cache cacheKey now).truthy
    · rw [auxHit fetch cacheKey now (b + 1) cache rc ai hhit] at herr
      simp at herr
    · simp only [Bool.not_eq_true] at hhit
      cases hfe : fetch ai with
      | success data =>
        have hrec : makeMetApiRequestAux fetch cacheKey now (b + 1) cache rc ai
            = { result := .ok data, cache := metApiCacheSet cache cacheKey data now,
                attempts := 1, enqueues := 1 } := by
          simp [makeMetApiRequestAux, hhit, hfe]
        rw [hrec] at herr
        simp at herr
      | httpError status =>
        by_cases hst : status = 403
        · subst hst
          have hrec : makeMetApiRequestAux fetch cacheKey now (b + 1) cache rc ai
              = { result := (makeMetApiRequestAux fetch cacheKey now b cache (rc + 1) (ai + 1)).result,
                  cache := (makeMetApiRequestAux fetch cacheKey now b cache (rc + 1) (ai + 1)).cache,
                  attempts := (makeMetApiRequestAux fetch cacheKey now b cache (rc + 1) (ai + 1)).attempts + 1,
                  enqueues := (makeMetApiRequestAux fetch cacheKey now b cache (rc + 1) (ai + 1)).enqueues + 1 } := by
            simp [makeMetApiRequestAux, hhit, hfe]
          rw [hrec] at herr
          simp only [hrec]
          obtain ⟨h1, h2, h3⟩ := ih cache (rc + 1) (ai + 1) e herr
          refine ⟨h1, by omega, ?_⟩
          have h4 : ai + ((makeMetApiRequestAux fetch cacheKey now b cache (rc + 1) (ai + 1)).attempts + 1) - 1
              = ai + 1 + (makeMetApiRequestAux fetch cacheKey now b cache (rc + 1) (ai + 1)).attempts - 1 := by
            omega
          rw [h4]
          exact h3
        · have hrec : makeMetApiRequestAux fetch cacheKey now (b + 1) cache rc ai
              = { result := .error (.httpError status), cache := cache,
                  attempts := 1, enqueues := 1 } := by
            simp [makeMetApiRequestAux, hhit, hfe, hst]
          rw [hrec] at herr ⊢
          simp only [Except.error.injEq] at herr
          subst herr
          simp [JSError.toFetchResult, hfe]
      | networkError =>
        have hrec : makeMetApiRequestAux fetch cacheKey now (b + 1) cache rc ai
            = { result := .error .networkError, cache := cache,
                attempts := 1, enqueues := 1 } := by
          simp [makeMetApiRequestAux, hhit, hfe]
        rw [hrec] at herr ⊢
        simp only [Except.error.injEq] at herr
        subst herr
        simp [JSError.toFetchResult, hfe]

/-- When every upstream attempt yields HTTP 403 and the cache misses,
the call performs exactly budget + 1 attempts and throws the 403. -/
theorem aux_all403 (fetch : Nat → FetchResult) (cacheKey : String) (now : Nat)
    (h403 : ∀ i, fetch i = .httpError 403) :
    ∀ (budget : Nat) (cache : Cache) (retryCount attemptIdx : Nat),
    (cacheGetJS cache cacheKey now).truthy = false →
    (makeMetApiRequestAux fetch cacheKey now budget cache retryCount attemptIdx).attempts = budget + 1 ∧
    (makeMetApiRequestAux fetch cacheKey now budget cache retryCount attemptIdx).result
      = .error (.httpError 403) := by
  intro budget
  induction budget with
  | zero =>
    intro cache rc ai hmiss
    simp [makeMetApiRequestAux, hmiss, h403 ai]
  | succ b ih =>
    intro cache rc ai hmiss
    obtain ⟨h1, h2⟩ := ih cache (rc + 1) (ai + 1) hmiss
    simp [makeMetApiRequestAux, hmiss, h403 ai, h1, h2]


/-- A network error (no HTTP response) on the first attempt of a level
is thrown at once: the retry condition requires `error.response`, so no
retry happens, whatever the remaining budget. -/
theorem aux_network (fetch : Nat → FetchResult) (cacheKey : String) (now budget : Nat)
    (cache : Cache) (retryCount attemptIdx : Nat)
    (hmiss : (cacheGetJS cache cacheKey now).truthy = false)
    (hnet : fetch attemptIdx = .networkError) :
    makeMetApiRequestAux fetch cacheKey now budget cache retryCount attemptIdx
      = { result := .error .networkError, cache := cache, attempts := 1, enqueues := 1 } := by
  cases budget <;> simp [makeMetApiRequestAux, hmiss, hnet]

/-- C1, counterexample. The claim "if makeMetApiRequest(p, k) has
completed successfully at time T, then every later call with the same
key before T plus the TTL returns the identical payload and performs no
additional upstream HTTP call" is false as stated: an upstream payload
that is falsy (here the empty string) completes the first call
successfully and is stored, yet the call one second later — well within
the TTL — performs an upstream attempt again, because the cache-hit
test `if (cachedData)` checks truthiness, not presence. -/
theorem c1_counterexample :
    (makeMetApiRequest (fun _ => .success (.vStr "")) [] "k" 0).result
      = .ok (.vStr "") ∧
    (1 : Nat) < 0 + stdTTL ∧
    (makeMetApiRequest (fun _ => .success (.vStr ""))
      (makeMetApiRequest (fun _ => .success (.vStr "")) [] "k" 0).cache "k" 1).attempts = 1 :=
  ⟨rfl, by decide, rfl⟩

/-- C1, amended. If a call at time T missed the cache and completed
successfully with a truthy payload v, then every later call with the
same key strictly before T + 3600 s returns the identical payload v,
performs no upstream attempt and never enters the scheduler queue (the
cache hit returns before `queue.add`). -/
theorem c1_amended_thm (fetch fetch2 : Nat → FetchResult) (cache : Cache)
    (k : String) (T T2 : Nat) (v : JSValue)
    (hmiss : (cacheGetJS cache k T).truthy = false)
    (hok : (makeMetApiRequest fetch cache k T).result = .ok v)
    (hv : v.truthy = true)
    (_hT : T ≤ T2) (hT2 : T2 < T + stdTTL) :
    (makeMetApiRequest fetch2 (makeMetApiRequest fetch cache k T).cache k T2).result = .ok v ∧
    (makeMetApiRequest fetch2 (makeMetApiRequest fetch cache k T).cache k T2).attempts = 0 ∧
    (makeMetApiRequest fetch2 (makeMetApiRequest fetch cache k T).cache k T2).enqueues = 0 := by
  have hc : (makeMetApiRequest fetch cache k T).cache = metApiCacheSet cache k v T :=
    aux_ok_cache fetch k T maxAttempts cache 0 0 v hmiss hok
  have hget : cacheGetJS (metApiCacheSet cache k v T) k T2 = v := by
    simp [cacheGetJS, metApiCacheSet, cacheGet_set_self, hT2]
  have hhit : (cacheGetJS ((makeMetApiRequest fetch cache k T).cache) k T2).truthy = true := by
    rw [hc, hget]; exact hv
  have hcall : makeMetApiRequest fetch2 ((makeMetApiRequest fetch cache k T).cache) k T2
      = { result := .ok (cacheGetJS ((makeMetApiRequest fetch cache k T).cache) k T2),
          cache := (makeMetApiRequest fetch cache k T).cache, attempts := 0, enqueues := 0 } :=
    auxHit fetch2 k T2 maxAttempts _ 0 0 hhit
  rw [hcall, hc, hget]
  exact ⟨rfl, rfl, rfl⟩

/-- C1, witness for the amended theorem at a concrete input. -/
theorem c1_amended_witness :
    (cacheGetJS [] "k" 0).truthy = false ∧
    (makeMetApiRequest (fun _ => .success (.vStr "x")) [] "k" 0).result = .ok (.vStr "x") ∧
    (JSValue.vStr "x").truthy = true ∧
    (makeMetApiRequest (fun _ => .success (.vStr "x"))
      (makeMetApiRequest (fun _ => .success (.vStr "x")) [] "k" 0).cache "k" 3599).result
      = .ok (.vStr "x") ∧
    (makeMetApiRequest (fun _ => .success (.vStr "x"))
      (makeMetApiRequest (fun _ => .success (.vStr "x")) [] "k" 0).cache "k" 3599).attempts = 0 := by
  refine ⟨rfl, rfl, rfl, ?_, ?_⟩
  · exact (c1_amended_thm (fun _ => .success (.vStr "x")) (fun _ => .success (.vStr "x"))
      [] "k" 0 3599 (.vStr "x") rfl rfl rfl (by decide) (by decide)).1
  · exact (c1_amended_thm (fun _ => .success (.vStr "x")) (fun _ => .success (.vStr "x"))
      [] "k" 0 3599 (.vStr "x") rfl rfl rfl (by decide) (by decide)).2.1

/-- C2. For a cache-missing request whose every upstream attempt yields
HTTP 403, `makeMetApiRequest` performs exactly maxAttempts + 1 = 4
upstream attempts in total (the recursion guard `retryCount < 3` bounds
the attempt counter) and then terminates, surfacing the 403 error to
the caller unchanged; it is a total function, so it cannot loop
forever. -/
theorem c2_retry_bound (fetch : Nat → FetchResult) (cache : Cache) (k : String) (now : Nat)
    (h403 : ∀ i, fetch i = .httpError 403)
    (hmiss : (cacheGetJS cache k now).truthy = false) :
    (makeMetApiRequest fetch cache k now).attempts = maxAttempts + 1 ∧
    (makeMetApiRequest fetch cache k now).result = .error (.httpError 403) :=
  aux_all403 fetch k now h403 maxAttempts cache 0 0 hmiss

/-- C2, witness at a concrete always-403 oracle and empty cache. -/
theorem c2_retry_bound_witness :
    (∀ i : Nat, (fun _ : Nat => FetchResult.httpError 403) i = FetchResult.httpError 403) ∧
    (cacheGetJS [] "k" 0).truthy = false ∧
    (makeMetApiRequest (fun _ => .httpError 403) [] "k" 0).attempts = maxAttempts + 1 ∧
    (makeMetApiRequest (fun _ => .httpError 403) [] "k" 0).result = .error (.httpError 403) :=
  ⟨fun _ => rfl, rfl,
    (c2_retry_bound _ [] "k" 0 (fun _ => rfl) rfl).1,
    (c2_retry_bound _ [] "k" 0 (fun _ => rfl) rfl).2⟩

/-- C3, counterexample. The claim that a network error below a network
retry budget leads to a further attempt is false: with an oracle that
yields a network error on attempt 0 and would succeed on attempt 1, the
code surfaces the network error after exactly one attempt — attempt 1
is never made, so no positive network retry budget exists. -/
theorem c3_counterexample :
    (makeMetApiRequest (fun i => if i = 0 then .networkError else .success (.vStr "recovered"))
      [] "k" 0).result = .error .networkError ∧
    (makeMetApiRequest (fun i => if i = 0 then .networkError else .success (.vStr "recovered"))
      [] "k" 0).attempts = 1 :=
  ⟨rfl, rfl⟩

/-- C3, amended. The code retries only HTTP 403 responses: an upstream
failure carrying no HTTP response (DNS failure, connection reset,
timeout) at the first attempt of a call is surfaced to the caller
immediately, after exactly one upstream attempt, with no delay and no
further attempt — there is no separate network retry budget. -/
theorem c3_amended_thm (fetch : Nat → FetchResult) (cache : Cache) (k : String) (now : Nat)
    (hmiss : (cacheGetJS cache k now).truthy = false)
    (hnet : fetch 0 = .networkError) :
    (makeMetApiRequest fetch cache k now).result = .error .networkError ∧
    (makeMetApiRequest fetch cache k now).attempts = 1 := by
  unfold makeMetApiRequest
  rw [aux_network fetch k now maxAttempts cache 0 0 hmiss hnet]
  exact ⟨rfl, rfl⟩

/-- C3, witness for the amended theorem at a concrete input. -/
theorem c3_amended_witness :
    (cacheGetJS [] "k" 0).truthy = false ∧
    (fun _ : Nat => FetchResult.networkError) 0 = FetchResult.networkError ∧
    (makeMetApiRequest (fun _ => .networkError) [] "k" 0).result = .error .networkError ∧
    (makeMetApiRequest (fun _ => .networkError) [] "k" 0).attempts = 1 :=
  ⟨rfl, rfl,
    (c3_amended_thm _ [] "k" 0 rfl rfl).1,
    (c3_amended_thm _ [] "k" 0 rfl rfl).2⟩

/-- C4. The delay inserted before retry attempt n + 1 of a 403-failed
request equals 2000 * 2 ^ n + r * 1000 ms where r models the
`Math.random()` draw; for every r in [0, 1) the delay lies in the
half-open interval [2000 * 2 ^ n, 2000 * 2 ^ n + 1000) ms. -/
theorem c4_backoff_range (n : Nat) (r : ℚ) (h0 : 0 ≤ r) (h1 : r < 1) :
    2000 * 2 ^ n ≤ backoffDelay n r ∧ backoffDelay n r < 2000 * 2 ^ n + 1000 := by
  unfold backoffDelay
  have h2 : (0:ℚ) ≤ r * 1000 := mul_nonneg h0 (by norm_num)
  have h3 : r * 1000 < 1000 := by nlinarith
  constructor <;> nlinarith [h2, h3]

/-- C4, witness at n = 1 and r = 1/2. -/
theorem c4_backoff_range_witness :
    (0:ℚ) ≤ 1/2 ∧ (1/2:ℚ) < 1 ∧
    2000 * 2 ^ 1 ≤ backoffDelay 1 (1/2) ∧ backoffDelay 1 (1/2) < 2000 * 2 ^ 1 + 1000 :=
  ⟨by norm_num, by norm_num,
    (c4_backoff_range 1 (1/2) (by norm_num) (by norm_num)).1,
    (c4_backoff_range 1 (1/2) (by norm_num) (by norm_num)).2⟩

/-- C5. When the mediated fetch terminates in failure, the error
delivered to the caller is the terminal error itself — the classified
outcome of the final upstream attempt, unmodified — and the cache is
unchanged: no entry is written for a failed lookup. -/
theorem c5_error_unchanged (fetch : Nat → FetchResult) (cache : Cache) (k : String)
    (now : Nat) (e : JSError)
    (herr : (makeMetApiRequest fetch cache k now).result = .error e) :
    (makeMetApiRequest fetch cache k now).cache = cache ∧
    fetch ((makeMetApiRequest fetch cache k now).attempts - 1) = e.toFetchResult := by
  obtain ⟨h1, h2, h3⟩ := aux_error fetch k now maxAttempts cache 0 0 e herr
  refine ⟨h1, ?_⟩
  simpa using h3

/-- C5, witness: the all-403 run leaves the cache empty and surfaces
the 403 of the final (fourth) attempt. -/
theorem c5_error_unchanged_witness :
    (makeMetApiRequest (fun _ => .httpError 403) [] "cacheKey" 5).result
      = .error (.httpError 403) ∧
    (makeMetApiRequest (fun _ => .httpError 403) [] "cacheKey" 5).cache = [] ∧
    (fun _ : Nat => FetchResult.httpError 403)
      ((makeMetApiRequest (fun _ => .httpError 403) [] "cacheKey" 5).attempts - 1)
      = (JSError.httpError 403).toFetchResult :=
  ⟨rfl,
    (c5_error_unchanged (fun _ => .httpError 403) [] "cacheKey" 5 (.httpError 403) rfl).1,
    (c5_error_unchanged (fun _ => .httpError 403) [] "cacheKey" 5 (.httpError 403) rfl).2⟩

/-- C6. An entry written at time T with the default TTL of 3600 s is
returned by a cache read at any time strictly before T + 3600 s, and at
any time at or after T + 3600 s it is absent and a mediated request for
its key performs a fresh upstream attempt. -/
theorem c6_ttl (c : Cache) (k : String) (v : JSValue) (T t : Nat) (fetch : Nat → FetchResult) :
    (t < T + stdTTL → cacheGet (metApiCacheSet c k v T) k t = some v) ∧
    (T + stdTTL ≤ t →
      cacheGet (metApiCacheSet c k v T) k t = none ∧
      1 ≤ (makeMetApiRequest fetch (metApiCacheSet c k v T) k t).attempts) := by
  constructor
  · intro h
    rw [metApiCacheSet, cacheGet_set_self, if_pos h]
  · intro h
    have hnone : cacheGet (metApiCacheSet c k v T) k t = none := by
      rw [metApiCacheSet, cacheGet_set_self, if_neg (by omega)]
    refine ⟨hnone, ?_⟩
    have hmiss : (cacheGetJS (metApiCacheSet c k v T) k t).truthy = false := by
      simp [cacheGetJS, hnone, JSValue.truthy]
    exact (aux_miss_calls fetch k t maxAttempts _ 0 0 hmiss).1

/-- C6, witness at T = 0, reading at 3599 s and 3600 s. -/
theorem c6_ttl_witness :
    (3599 < 0 + stdTTL ∧
      cacheGet (metApiCacheSet [] "k" (.vStr "x") 0) "k" 3599 = some (.vStr "x")) ∧
    (0 + stdTTL ≤ 3600 ∧
      cacheGet (metApiCacheSet [] "k" (.vStr "x") 0) "k" 3600 = none ∧
      1 ≤ (makeMetApiRequest (fun _ => .success (.vStr "y"))
        (metApiCacheSet [] "k" (.vStr "x") 0) "k" 3600).attempts) :=
  ⟨⟨by decide, (c6_ttl [] "k" (.vStr "x") 0 3599 (fun _ => .success (.vStr "y"))).1 (by decide)⟩,
   ⟨by decide, (c6_ttl [] "k" (.vStr "x") 0 3600 (fun _ => .success (.vStr "y"))).2 (by decide)⟩⟩

/-- C9, counterexample. The claim that every configuration value the
core consumes is taken from external configuration is false: the cache
TTL is the hardcoded literal 3600 in `src/server.js` line 13, not an
environment read. -/
theorem c9_counterexample :
    (configSource .cacheTTL).isExternal = false ∧ configSource .cacheTTL = .hardcoded 3600 :=
  ⟨rfl, rfl⟩

/-- C9, amended. Of the configuration values the core consumes, exactly
one — the upstream base URL (`process.env.MET_API_BASE_URL`) — is taken
from external configuration; the cache TTL, the scheduler concurrency,
intervalCap, interval and timeout, the retry bound, the backoff base
and jitter, and the per-call network timeout are hardcoded literals. -/
theorem c9_amended_thm :
    ∀ f : CoreConfigField, (configSource f).isExternal = true ↔ f = .upstreamBaseUrl := by
  intro f
  cases f <;> simp [configSource, ConfigSource.isExternal]

/-- C10. A falsy stored payload is never served from the cache: when
the cache maps the key to an unexpired falsy value, `makeMetApiRequest`
still enters the scheduler queue and performs an upstream attempt,
because the cache-hit test checks truthiness of the retrieved value
rather than key presence. -/
theorem c10_falsy_refetch (fetch : Nat → FetchResult) (cache : Cache) (k : String)
    (now : Nat) (v : JSValue)
    (hv : v.truthy = false)
    (hc : cacheGet cache k now = some v) :
    1 ≤ (makeMetApiRequest fetch cache k now).attempts ∧
    1 ≤ (makeMetApiRequest fetch cache k now).enqueues := by
  have hmiss : (cacheGetJS cache k now).truthy = false := by
    simp [cacheGetJS, hc, hv]
  exact aux_miss_calls fetch k now maxAttempts cache 0 0 hmiss

/-- C10, witness: a stored null payload is re-fetched. -/
theorem c10_falsy_refetch_witness :
    (JSValue.vNull).truthy = false ∧
    cacheGet [("k", { value := JSValue.vNull, expiresAt := 3600 })] "k" 0 = some .vNull ∧
    1 ≤ (makeMetApiRequest (fun _ => .success .vNull)
      [("k", { value := JSValue.vNull, expiresAt := 3600 })] "k" 0).attempts ∧
    1 ≤ (makeMetApiRequest (fun _ => .success .vNull)
      [("k", { value := JSValue.vNull, expiresAt := 3600 })] "k" 0).enqueues :=
  ⟨rfl, rfl,
    (c10_falsy_refetch (fun _ => .success .vNull)
      [("k", { value := JSValue.vNull, expiresAt := 3600 })] "k" 0 .vNull rfl rfl).1,
    (c10_falsy_refetch (fun _ => .success .vNull)
      [("k", { value := JSValue.vNull, expiresAt := 3600 })] "k" 0 .vNull rfl rfl).2⟩


/-- The scheduler invariant holds in every reachable state, by
induction over the transition relation. -/
theorem schedInv_reachable (cfg : SchedulerConfig) (s : SchedState)
    (h : SchedReachable cfg s) : SchedInv cfg s := by
  induction h with
  | init =>
    refine ⟨?_, ?_, ?_, ?_⟩ <;> simp [initState]
  | step hr hstep ih =>
    rename_i sa sb
    obtain ⟨i1, i2, i3, i4⟩ := ih
    cases hstep with
    | submit id =>
      exact ⟨i1, i2, i3, i4⟩
    | admitNext id rest hpend hconc hcap =>
      refine ⟨?_, ?_, ?_, ?_⟩
      · show ({ id := id, admittedAt := sa.now } :: sa.running).length ≤ cfg.concurrency
        simp only [List.length_cons]
        omega
      · show sa.windowCount + 1 = (sa.gen :: sa.dispatchLog).count sa.gen
        rw [List.count_cons_self]
        omega
      · intro g
        show (sa.gen :: sa.dispatchLog).count g ≤ cfg.intervalCap
        by_cases hg : g = sa.gen
        · subst hg
          rw [List.count_cons_self]
          omega
        · rw [List.count_cons_of_ne hg]
          exact i3 g
      · intro g hg
        show g ≤ sa.gen
        rcases List.mem_cons.mp hg with h | h
        · omega
        · exact i4 g h
    | complete t out ht =>
      refine ⟨?_, i2, i3, i4⟩
      show (sa.running.erase t).length ≤ cfg.concurrency
      exact le_trans (List.Sublist.length_le (List.erase_sublist t sa.running)) i1
    | timeoutFire t ht htime =>
      refine ⟨?_, i2, i3, i4⟩
      show (sa.running.erase t).length ≤ cfg.concurrency
      exact le_trans (List.Sublist.length_le (List.erase_sublist t sa.running)) i1
    | advance dt =>
      exact ⟨i1, i2, i3, i4⟩
    | windowReset hw =>
      refine ⟨i1, ?_, i3, ?_⟩
      · show (0 : Nat) = sa.dispatchLog.count (sa.gen + 1)
        symm
        rw [List.count_eq_zero]
        intro hmem
        have h5 := i4 _ hmem
        omega
      · intro g hg
        show g ≤ sa.gen + 1
        have h5 := i4 g hg
        omega

/-- C7. In every execution of the scheduler (every reachable state of
the step relation, under arbitrarily many submissions, each retry
re-admission being its own dispatch), never are more than
`concurrency` = 3 tasks running simultaneously, and no fixed-boundary
window of length `interval` ever observes more than `intervalCap` = 10
dispatches. -/
theorem c7_scheduler_bounds (s : SchedState) (h : SchedReachable queueConfig s) :
    s.running.length ≤ queueConfig.concurrency ∧
    ∀ g, s.dispatchLog.count g ≤ queueConfig.intervalCap := by
  obtain ⟨h1, _, h3, _⟩ := schedInv_reachable queueConfig s h
  exact ⟨h1, h3⟩

/-- C7, witness: the state reached by submitting and admitting one task
satisfies both bounds. -/
theorem c7_scheduler_bounds_witness :
    SchedReachable queueConfig
      { initState with
          pending := [],
          running := [{ id := 7, admittedAt := 0 }],
          windowCount := 1,
          dispatchLog := [0] } ∧
    ({ initState with
          pending := [],
          running := [{ id := 7, admittedAt := 0 }],
          windowCount := 1,
          dispatchLog := [0] } : SchedState).running.length ≤ queueConfig.concurrency ∧
    ∀ g, ({ initState with
          pending := [],
          running := [{ id := 7, admittedAt := 0 }],
          windowCount := 1,
          dispatchLog := [0] } : SchedState).dispatchLog.count g ≤ queueConfig.intervalCap := by
  have hreach : SchedReachable queueConfig
      { initState with
          pending := [],
          running := [{ id := 7, admittedAt := 0 }],
          windowCount := 1,
          dispatchLog := [0] } := by
    have hstep1 : SchedStep queueConfig initState { initState with pending := [7] } :=
      SchedStep.submit initState 7
    have hstep2 : SchedStep queueConfig { initState with pending := [7] }
        { initState with
            pending := [],
            running := [{ id := 7, admittedAt := 0 }],
            windowCount := 1,
            dispatchLog := [0] } :=
      SchedStep.admitNext { initState with pending := [7] } 7 [] rfl (by decide) (by decide)
    exact SchedReachable.step (SchedReachable.step SchedReachable.init hstep1) hstep2
  refine ⟨hreach, ?_, ?_⟩
  · exact (c7_scheduler_bounds _ hreach).1
  · exact (c7_scheduler_bounds _ hreach).2

/-- C8. A running task whose work has not completed `timeout` = 30000 ms
after admission can be resolved by the scheduler as a timeout: the
transition exists, it delivers a timeout outcome to the task's caller,
and it frees the task's concurrency slot (the running count drops by
one), so a hung upstream call cannot hold a slot indefinitely. -/
theorem c8_timeout_resolves (s : SchedState) (t : RunningTask)
    (ht : t ∈ s.running)
    (htime : t.admittedAt + queueConfig.timeout ≤ s.now) :
    SchedStep queueConfig s (fireTimeout s t) ∧
    (t.id, TaskOutcome.timedOut) ∈ (fireTimeout s t).results ∧
    (fireTimeout s t).running.length + 1 = s.running.length := by
  refine ⟨SchedStep.timeoutFire s t ht htime, ?_, ?_⟩
  · show (t.id, TaskOutcome.timedOut) ∈ (t.id, TaskOutcome.timedOut) :: s.results
    exact List.mem_cons_self _ _
  · show (s.running.erase t).length + 1 = s.running.length
    have hpos : 0 < s.running.length := List.length_pos.mpr (List.ne_nil_of_mem ht)
    rw [List.length_erase_of_mem ht]
    omega

/-- C8, witness: one task admitted at 0 with the clock at 30000 ms. -/
theorem c8_timeout_resolves_witness :
    ({ id := 1, admittedAt := 0 } : RunningTask)
        ∈ ({ initState with now := 30000, running := [{ id := 1, admittedAt := 0 }] } : SchedState).running ∧
    (0 + queueConfig.timeout ≤ 30000) ∧
    SchedStep queueConfig
      { initState with now := 30000, running := [{ id := 1, admittedAt := 0 }] }
      (fireTimeout { initState with now := 30000, running := [{ id := 1, admittedAt := 0 }] }
        { id := 1, admittedAt := 0 }) ∧
    (1, TaskOutcome.timedOut)
        ∈ (fireTimeout { initState with now := 30000, running := [{ id := 1, admittedAt := 0 }] }
            { id := 1, admittedAt := 0 }).results := by
  have ht : ({ id := 1, admittedAt := 0 } : RunningTask)
      ∈ ({ initState with now := 30000, running := [{ id := 1, admittedAt := 0 }] } : SchedState).running := by
    exact List.mem_singleton.mpr rfl
  have htime : ({ id := 1, admittedAt := 0 } : RunningTask).admittedAt + queueConfig.timeout
      ≤ ({ initState with now := 30000, running := [{ id := 1, admittedAt := 0 }] } : SchedState).now := by
    decide
  refine ⟨ht, by decide, ?_, ?_⟩
  · exact (c8_timeout_resolves _ _ ht htime).1
  · exact (c8_timeout_resolves _ _ ht htime).2.1

end MetMuseum
